import Mathlib

/-!
Shallow embedding of `src/streamlit_app.py` (the CMBS occupancy dashboard).

The script loads a table of property records, derives the set of vintages
from the `COMPANY_NAME` column, filters by a selected vintage and company,
cleans the columns, shifts reporting dates back by one `MonthBegin`, and
computes a weighted occupancy per period for the selected company together
with 25/50/75 percentile bands per period across the vintage.

Floats of the source are modelled as `ℚ`, nullable cells as `Option`,
`datetime64` cells as a calendar-date record, and a raised exception as
`Option.none` of the surrounding computation.
-/

namespace CMBS

/-- A calendar date (models a `datetime64[ns]` value, which the script only
ever inspects at day granularity). -/
structure Date where
  year : Int
  month : Int
  day : Int
deriving DecidableEq, Repr

/-- Linearisation of a date used to order group keys chronologically
(valid dates have `1 ≤ month ≤ 12` and `1 ≤ day ≤ 31 < 32`, so the key is
injective and its order is the chronological one). -/
def Date.key (d : Date) : Int :=
  (d.year * 12 + (d.month - 1)) * 32 + d.day

/-- Chronological comparison of dates, via the linear key. -/
def dateLe (a b : Date) : Prop := a.key ≤ b.key

instance : DecidableRel dateLe :=
  fun a b => inferInstanceAs (Decidable (a.key ≤ b.key))

/-- `date - pd.offsets.MonthBegin(1)` (lines 67-68): a date after the first
of its month rolls back to the first of that month; the first of a month
rolls back to the first of the previous month. -/
def monthBeginRollback (d : Date) : Date :=
  if d.day = 1 then
    if d.month = 1 then ⟨d.year - 1, 12, 1⟩ else ⟨d.year, d.month - 1, 1⟩
  else ⟨d.year, d.month, 1⟩

/-- A raw row of the loaded CSV, before cleaning: every cell other than the
company name may be missing (NaN / NaT). -/
structure Row where
  company : List Char
  date : Option Date
  occ : Option ℚ
  value : Option ℚ
deriving DecidableEq, Repr

/-- A cleaned row, after `astype(column_types)` (line 62): the date is
present, occupancy is a float and `MOST_RECENT_VALUE` is an int. -/
structure CRow where
  company : List Char
  date : Date
  occ : ℚ
  value : Int
deriving DecidableEq, Repr

/-- Numeric value of an ASCII digit character. -/
def digitVal (c : Char) : Nat := c.toNat - 48

/-- Scan for the regex `(?<=\D)\d{4}(?=\D|$)` (line 31): a run of four
digits preceded by a non-digit character and followed by a non-digit or the
end of the string.  `prev` is the character before the current position;
the leftmost match is returned, as `re.findall(...)[0]` does. -/
def findYear : Option Char → List Char → Option Nat
  | prev, a :: b :: c :: d :: rest =>
    if (prev.elim false (fun p => !p.isDigit)) && a.isDigit && b.isDigit
        && c.isDigit && d.isDigit
        && (rest.head?.elim true (fun e => !e.isDigit)) then
      some (1000 * digitVal a + 100 * digitVal b + 10 * digitVal c + digitVal d)
    else
      findYear (some a) (b :: c :: d :: rest)
  | _, _ => none

/-- `int(re.findall(r'(?<=\D)\d{4}(?=\D|$)', name)[0])` for one name;
`none` models the `IndexError` raised when the pattern has no match. -/
def extractYear (name : List Char) : Option Nat := findYear none name

/-- Effectful map over a list in the `Option` monad: models applying a
possibly-raising function to every element (or every group), the whole
computation failing if any application raises. -/
def optMapM {α β : Type} (f : α → Option β) : List α → Option (List β)
  | [] => some []
  | a :: l => (f a).bind (fun b => (optMapM f l).map (fun bs => b :: bs))

/-- Line 31: `sorted(list(set([int(re.findall(...)[0]) for name in
properties['COMPANY_NAME'].unique()])))`. -/
def uniqueYears (t : List Row) : Option (List Nat) :=
  (optMapM extractYear ((t.map (fun r => r.company)).dedup)).map
    (fun ys => ys.dedup.insertionSort (· ≤ ·))

/-- Whether `nd` is an initial segment of `hay`. -/
def leadEq : List Char → List Char → Bool
  | [], _ => true
  | _ :: _, [] => false
  | a :: as, b :: bs => a == b && leadEq as bs

/-- Substring containment, the semantics of `Series.str.contains` for a
pattern with no regex metacharacters (here the decimal digits of a year). -/
def hasSub (nd : List Char) : List Char → Bool
  | [] => nd.isEmpty
  | c :: t => leadEq nd (c :: t) || hasSub nd (t)

/-- Line 40: `properties[properties["COMPANY_NAME"].str.contains(str(selected_year))]`. -/
def yearData (t : List Row) (y : Nat) : List Row :=
  t.filter (fun r => hasSub (Nat.repr y).data r.company)

/-- Line 52: `year_data['MOST_RECENT_VALUE'].fillna(0)`. -/
def fillVal (l : List Row) : List Row :=
  l.map (fun r => { r with value := some (r.value.getD 0) })

/-- Lines 55-56: `.apply(lambda x: x / 100 if x > 1 else x).fillna(0)`
(NaN compares false with `> 1`, so a missing value passes through the
lambda and is then filled with 0). -/
def normOcc (x : Option ℚ) : ℚ :=
  match x with
  | none => 0
  | some v => if 1 < v then v / 100 else v

/-- Lines 55-56 applied to the occupancy column of every row. -/
def occClean (l : List Row) : List Row :=
  l.map (fun r => { r with occ := some (normOcc r.occ) })

/-- Line 59: `year_data.dropna(subset=['REPORTINGPERIODENDDATE'])`. -/
def dropDate (l : List Row) : List Row :=
  l.filter (fun r => r.date.isSome)

/-- `astype(int)` on a float: truncation toward zero. -/
def truncInt (q : ℚ) : Int :=
  if 0 ≤ q then Rat.floor q else -(Rat.floor (-q))

/-- Line 62, `astype(column_types)` on one row.  It is only applied after
the cleaning steps, so the `getD` defaults are never used: the date is
present (dropna) and occupancy and value are filled. -/
def toCRow (r : Row) : CRow :=
  { company := r.company
    date := r.date.getD ⟨0, 1, 1⟩
    occ := (r.occ.getD 0)
    value := truncInt (r.value.getD 0) }

/-- Lines 51-62: the cleaned `year_data` for a selected vintage `y`:
filter by vintage, fill `MOST_RECENT_VALUE`, normalize occupancy, drop
rows without a reporting date, cast types. -/
def cleanRows (t : List Row) (y : Nat) : List CRow :=
  (dropDate (occClean (fillVal (yearData t y)))).map toCRow

/-- Lines 67-68: subtract `MonthBegin(1)` from every reporting date. -/
def shiftRows (l : List CRow) : List CRow :=
  l.map (fun r => { r with date := monthBeginRollback r.date })

/-- The vintage-wide series entering the percentile aggregation (line 67
applied to `year_data`). -/
def vintageRows (t : List Row) (y : Nat) : List CRow :=
  shiftRows (cleanRows t y)

/-- Lines 65 and 68: `bank_data = year_data[COMPANY_NAME == selected]`,
then the date shift. -/
def bankRows (t : List Row) (y : Nat) (c : List Char) : List CRow :=
  shiftRows ((cleanRows t y).filter (fun r => r.company == c))

/-- The group keys of `groupby("REPORTINGPERIODENDDATE")`: the distinct
dates, in chronological order (pandas sorts group keys). -/
def dKeys (l : List CRow) : List Date :=
  ((l.map (fun r => r.date)).dedup).insertionSort dateLe

/-- The rows of one group, in their original order. -/
def dGroup (l : List CRow) (k : Date) : List CRow :=
  l.filter (fun r => r.date == k)

/-- Sum of the weights (`MOST_RECENT_VALUE`) of a group, as the float it
becomes inside `np.average`. -/
def wSum (g : List CRow) : ℚ :=
  (g.map (fun r => (r.value : ℚ))).sum

/-- Sum of weight times occupancy over a group. -/
def dotSum (g : List CRow) : ℚ :=
  (g.map (fun r => (r.value : ℚ) * r.occ)).sum

/-- Line 75: `np.average(x[occ], weights=x[value])`.  `np.average` raises
`ZeroDivisionError` when the weights sum to zero (modelled as `none`) and
otherwise returns `sum(occ*w) / sum(w)`. -/
def npAverage (g : List CRow) : Option ℚ :=
  if wSum g = 0 then none else some (dotSum g / wSum g)

/-- Lines 72-79: group the selected company's rows by shifted reporting
date and apply `np.average`; any raising group aborts the whole
aggregation. -/
def bankWeightedOccupancy (t : List Row) (y : Nat) (c : List Char) :
    Option (List (Date × ℚ)) :=
  optMapM
    (fun k => (npAverage (dGroup (bankRows t y c) k)).map (fun v => (k, v)))
    (dKeys (bankRows t y c))

/-- Ascending sort of the sample, as `np.percentile` performs internally. -/
def sortQ (l : List ℚ) : List ℚ := l.insertionSort (· ≤ ·)

/-- Line 87: `np.percentile(vals, q)` with the default linear
interpolation: with `s` the ascending sample, `h = q/100 * (n-1)` the
virtual index and `i = ⌊h⌋`, the result is `s[i] + (h - i) * (s[i+1] - s[i])`
(the source only calls it on nonempty groups). -/
def npPercentile (q : ℚ) (vals : List ℚ) : ℚ :=
  let s := sortQ vals
  let h : ℚ := q / 100 * ((s.length : ℚ) - 1)
  let i : Nat := (Rat.floor h).toNat
  let lo := s.getD i 0
  let hi := s.getD (i + 1) lo
  lo + (h - (i : ℚ)) * (hi - lo)

/-- Reference percentile implementation, following the spec's words: the
linear-interpolation definition that is `np.percentile`'s default.  With
`r = p/100 * (n-1)`, `k = ⌊r⌋` and `g = r - k`, the percentile is the
convex combination `(1 - g) * s[k] + g * s[k+1]` of the two closest order
statistics of the ascending sample. -/
def refPercentile (p : ℚ) (vals : List ℚ) : ℚ :=
  let s := sortQ vals
  let r : ℚ := p / 100 * ((s.length : ℚ) - 1)
  let k : Nat := (Rat.floor r).toNat
  let g : ℚ := r - (k : ℚ)
  (1 - g) * s.getD k 0 + g * (s.getD (k + 1) (s.getD k 0))

/-- Lines 84-91: group the vintage's rows by shifted reporting date and
take the 25th, 50th and 75th percentile of the occupancy column. -/
def percentiles (t : List Row) (y : Nat) : List (Date × ℚ × ℚ × ℚ) :=
  (dKeys (vintageRows t y)).map (fun k =>
    (k,
      npPercentile 25 ((dGroup (vintageRows t y) k).map (fun r => r.occ)),
      npPercentile 50 ((dGroup (vintageRows t y) k).map (fun r => r.occ)),
      npPercentile 75 ((dGroup (vintageRows t y) k).map (fun r => r.occ))))

/- Batteries marks the `Rat` field operations `@[irreducible]`; restore the
default transparency locally so that concrete runs of the embedded program
can be evaluated inside proofs. -/
attribute [local semireducible] Rat.add Rat.mul Rat.inv Rat.sub Rat.ofScientific

/-! Concrete sample tables used to instantiate the general theorems and to
exhibit counterexamples. -/

/-- A deal name whose embedded vintage year is 2020. -/
def nameB : List Char := "BANK 2020-B1".data

/-- A deal name whose first embedded four-digit year is 2019, but which
also contains the digits `2020` later in the name. -/
def nameA : List Char := "DEAL 2019-X2020".data

/-- Two observations of deal `nameB` in March 2021 with weights 100 and
300 and occupancies 0.9 and 0.8. -/
def wTab : List Row :=
  [ { company := nameB, date := some ⟨2021, 3, 31⟩, occ := some (9/10), value := some 100 },
    { company := nameB, date := some ⟨2021, 3, 15⟩, occ := some (4/5), value := some 300 } ]

/-- An observation of deal `nameB` whose `MOST_RECENT_VALUE` is missing. -/
def zRow : Row :=
  { company := nameB, date := some ⟨2021, 3, 31⟩, occ := some (9/10), value := none }

/-- Two observations of deal `nameB` in March 2021 whose
`MOST_RECENT_VALUE` is missing resp. zero. -/
def zTab : List Row :=
  [ zRow,
    { company := nameB, date := some ⟨2021, 3, 15⟩, occ := some (4/5), value := some 0 } ]

/-- Two observations of deal `nameB` in March 2021 whose weights are 1 and
-1: not all zero, yet summing to zero. -/
def negTab : List Row :=
  [ { company := nameB, date := some ⟨2021, 3, 31⟩, occ := some (1/2), value := some 1 },
    { company := nameB, date := some ⟨2021, 3, 15⟩, occ := some (3/4), value := some (-1) } ]

/-- An observation of the 2019-vintage deal `nameA`. -/
def rowA : Row :=
  { company := nameA, date := some ⟨2021, 3, 15⟩, occ := some (9/10), value := some 100 }

/-- A table with a 2019-vintage deal whose name also contains `2020`, and
a genuine 2020-vintage deal. -/
def cTab : List Row :=
  [ rowA,
    { company := nameB, date := some ⟨2021, 3, 31⟩, occ := some (4/5), value := some 200 } ]

/-- A single-row table of deal `nameB` whose raw occupancy is 200. -/
def oTab : List Row :=
  [ { company := nameB, date := some ⟨2021, 3, 31⟩, occ := some 200, value := some 100 } ]

/-- A table containing a company name in which the four-digit-year pattern
does not match. -/
def badTab : List Row :=
  [ { company := "NOYEARDEAL".data, date := some ⟨2021, 1, 31⟩, occ := some (1/2), value := some 5 } ]

/-- Two observations of deal `nameB` on two distinct days of January 2021,
one of them the first of the month. -/
def mTab : List Row :=
  [ { company := nameB, date := some ⟨2021, 1, 1⟩, occ := some (1/2), value := some 1 },
    { company := nameB, date := some ⟨2021, 1, 15⟩, occ := some (3/4), value := some 2 } ]

/-- A single cleaned row, used to instantiate the grouping-key theorem. -/
def mRow : CRow := { company := nameB, date := ⟨2021, 5, 20⟩, occ := 1/2, value := 10 }

/-! Helper lemmas. -/

/-- If `f` succeeds on every element of `l`, the effectful map succeeds and
computes the pointwise map. -/
theorem optMapM_eq_map {α β : Type} (f : α → Option β) (g : α → β) :
    ∀ l : List α, (∀ a ∈ l, f a = some (g a)) → optMapM f l = some (l.map g) := by
  intro l
  induction l with
  | nil => intro _; rfl
  | cons a t ih =>
    intro h
    simp only [optMapM, h a (List.mem_cons_self a t),
      ih (fun x hx => h x (List.mem_cons_of_mem a hx)), Option.map_some',
      List.map_cons]
    rfl

/-- Membership in a successful effectful map. -/
theorem optMapM_mem_iff {α β : Type} (f : α → Option β) :
    ∀ (l : List α) (bs : List β), optMapM f l = some bs →
      ∀ v : β, (v ∈ bs ↔ ∃ a ∈ l, f a = some v) := by
  intro l
  induction l with
  | nil =>
    intro bs h v
    simp only [optMapM] at h
    cases h
    simp
  | cons a t ih =>
    intro bs h v
    simp only [optMapM] at h
    cases hfa : f a with
    | none => rw [hfa] at h; simp at h
    | some b =>
      rw [hfa] at h
      cases hmt : optMapM f t with
      | none => rw [hmt] at h; simp at h
      | some bs' =>
        rw [hmt] at h
        have h2 : some (b :: bs') = some bs := h
        cases h2
        simp only [List.mem_cons]
        rw [ih bs' hmt v]
        constructor
        · rintro (rfl | ⟨x, hx, hfx⟩)
          · exact ⟨a, Or.inl rfl, hfa⟩
          · exact ⟨x, Or.inr hx, hfx⟩
        · rintro ⟨x, rfl | hx, hfx⟩
          · left; rw [hfa] at hfx; cases hfx; rfl
          · right; exact ⟨x, hx, hfx⟩

/-- The percentile computed by the embedded `np.percentile` agrees with the
reference linear-interpolation definition. -/
theorem npPercentile_eq_ref (q : ℚ) (vals : List ℚ) :
    npPercentile q vals = refPercentile q vals := by
  simp only [npPercentile, refPercentile]
  ring

/-- The group keys are exactly the dates appearing in the rows. -/
theorem mem_dKeys (l : List CRow) (k : Date) :
    k ∈ dKeys l ↔ ∃ r ∈ l, r.date = k := by
  unfold dKeys
  rw [(List.perm_insertionSort dateLe _).mem_iff, List.mem_dedup, List.mem_map]

/-- `fillna(0)` on `MOST_RECENT_VALUE`, row by row: the other cells are
unchanged, a missing value becomes 0, a present value is kept. -/
theorem fillVal_pointwise (l : List Row) :
    ∀ p ∈ l.zip (fillVal l),
      p.2.company = p.1.company ∧ p.2.date = p.1.date ∧ p.2.occ = p.1.occ
      ∧ (p.1.value = none → p.2.value = some 0)
      ∧ (∀ v : ℚ, p.1.value = some v → p.2.value = some v) := by
  induction l with
  | nil => intro p hp; simp [fillVal] at hp
  | cons a t ih =>
    intro p hp
    simp only [fillVal, List.map_cons, List.zip_cons_cons, List.mem_cons] at hp
    rcases hp with rfl | hp
    · cases hv : a.value with
      | none => simp [hv]
      | some v => simp [hv]
    · exact ih p hp

/-! Claim theorems. -/

/-- C8: on a table containing a `COMPANY_NAME` in which the four-digit-year
pattern has no match, the vintage-derivation step fails (the `IndexError`
of `re.findall(...)[0]` is unhandled), producing no recovered or fallback
value. -/
theorem uniqueYears_no_match_fails :
    extractYear ("NOYEARDEAL".data) = none ∧ uniqueYears badTab = none := by
  constructor
  · decide
  · decide

/-- C9: on an input where every row of the selected deal in its single
reporting period has a missing or zero `MOST_RECENT_VALUE`, all weights
become 0 after the fill step, the zero-denominator error branch of
`np.average` is reached, and the weighted-occupancy aggregation fails
rather than returning a value. -/
theorem bankWeightedOccupancy_zero_weights_fails :
    (bankRows zTab 2020 nameB).map (fun r => r.value) = [0, 0]
    ∧ bankWeightedOccupancy zTab 2020 nameB = none := by
  constructor
  · decide
  · decide

/-- C3 counterexample: the normalization lambda does not map every input
float into `[0, 1]`: the raw occupancy 200 becomes 2, the row reaches the
aggregations with occupancy 2, and 2 is outside `[0, 1]`. -/
theorem normOcc_out_of_range_cex :
    normOcc (some 200) = 2
    ∧ (cleanRows oTab 2020).map (fun r => r.occ) = [2]
    ∧ ¬ ((2 : ℚ) ≤ 1) := by
  refine ⟨by decide, by decide, by decide⟩

/-- C3 (amended): the normalization lambda maps every missing occupancy to
0 and every input in `[0, 100]` into `[0, 1]`; rows whose raw occupancy
lies outside `[0, 100]` are not guaranteed to land in `[0, 1]`. -/
theorem normOcc_range (v : ℚ) (h0 : 0 ≤ v) (h1 : v ≤ 100) :
    (0 ≤ normOcc (some v) ∧ normOcc (some v) ≤ 1) ∧ normOcc none = 0 := by
  refine ⟨?_, rfl⟩
  simp only [normOcc]
  split
  · constructor
    · positivity
    · rw [div_le_one (by norm_num)]; exact h1
  · constructor
    · exact h0
    · linarith

/-- Witness for `normOcc_range` at the concrete input 50. -/
theorem normOcc_range_witness :
    ((0 : ℚ) ≤ 50 ∧ (50 : ℚ) ≤ 100)
    ∧ ((0 ≤ normOcc (some 50) ∧ normOcc (some 50) ≤ 1) ∧ normOcc none = 0) :=
  ⟨⟨by norm_num, by norm_num⟩, normOcc_range 50 (by norm_num) (by norm_num)⟩

/-- C4 counterexample: the vintage filter keeps any row whose name merely
contains the digits of the selected year: the deal `DEAL 2019-X2020` has
extracted vintage 2019, yet is included when vintage 2020 is selected
(2020 is a legitimately offered vintage of this table). -/
theorem yearData_vintage_cex :
    uniqueYears cTab = some [2019, 2020]
    ∧ extractYear nameA = some 2019
    ∧ rowA ∈ yearData cTab 2020
    ∧ (2019 : Nat) ≠ 2020 := by
  refine ⟨by decide, by decide, by decide, by decide⟩

/-- C4 (amended): a row of the table is included in the vintage-filtered
subset `year_data` if and only if its `COMPANY_NAME` contains the decimal
digits of the selected year as a substring (which can differ from the
vintage year extracted from the name by the dropdown's pattern). -/
theorem yearData_mem_iff (t : List Row) (y : Nat) (r : Row) :
    r ∈ yearData t y ↔ r ∈ t ∧ hasSub (Nat.repr y).data r.company = true := by
  simp [yearData, List.mem_filter]

/-- C6: the `dropna` step keeps exactly the rows of the cleaned
vintage-filtered table whose reporting date is present, and the type-cast
step producing the rows entering both aggregations runs on its output. -/
theorem dropDate_keeps_dated_rows (t : List Row) (y : Nat) :
    (∀ r : Row, r ∈ dropDate (occClean (fillVal (yearData t y))) ↔
      r ∈ occClean (fillVal (yearData t y)) ∧ r.date.isSome = true)
    ∧ cleanRows t y = (dropDate (occClean (fillVal (yearData t y)))).map toCRow := by
  constructor
  · intro r
    simp [dropDate, List.mem_filter]
  · rfl

/-- C7: in the fill step of the cleaning phase, every row whose
`MOST_RECENT_VALUE` was missing gets the value 0, and every row whose
`MOST_RECENT_VALUE` was present keeps it unchanged. -/
theorem fillVal_fill_zero (t : List Row) (y : Nat) (v : ℚ) (p : Row × Row)
    (hp : p ∈ (yearData t y).zip (fillVal (yearData t y))) :
    (p.1.value = none → p.2.value = some 0)
    ∧ (p.1.value = some v → p.2.value = some v) := by
  have h := fillVal_pointwise (yearData t y) p hp
  exact ⟨h.2.2.2.1, h.2.2.2.2 v⟩

/-- Witness for `fillVal_fill_zero`: the first row of `zTab` has a missing
`MOST_RECENT_VALUE` and is filled with 0. -/
theorem fillVal_fill_zero_witness :
    ((zRow, { zRow with value := some 0 }) ∈ (yearData zTab 2020).zip (fillVal (yearData zTab 2020)))
    ∧ (zRow.value = none → ({ zRow with value := some (0:ℚ) } : Row).value = some 0)
    ∧ (zRow.value = some 5 → ({ zRow with value := some (0:ℚ) } : Row).value = some 5) := by
  refine ⟨by decide, ?_, ?_⟩
  · exact (fillVal_fill_zero zTab 2020 5 (zRow, { zRow with value := some 0 }) (by decide)).1
  · exact (fillVal_fill_zero zTab 2020 5 (zRow, { zRow with value := some 0 }) (by decide)).2

/-- C1 counterexample: in `negTab` the selected deal's single period has
weights 1 and -1 — not all zero — yet the weighted-occupancy aggregation
produces no value at all (`np.average` raises on a zero weight sum), so
the computed `weighted_occupancy` does not equal the weighted-mean formula
there. -/
theorem bankWeightedOccupancy_not_all_zero_cex :
    dKeys (bankRows negTab 2020 nameB) = [⟨2021, 3, 1⟩]
    ∧ (dGroup (bankRows negTab 2020 nameB) ⟨2021, 3, 1⟩).map (fun r => r.value) = [1, -1]
    ∧ bankWeightedOccupancy negTab 2020 nameB = none := by
  refine ⟨by decide, by decide, by decide⟩

/-- C1 (amended): under the precondition that every reporting period of
the selected deal's cleaned rows has weights summing to a nonzero value,
the computed `weighted_occupancy` of every period equals the sum over that
period's rows of `MOST_RECENT_VALUE` times normalized occupancy divided by
the sum of `MOST_RECENT_VALUE`. -/
theorem bankWeightedOccupancy_formula (t : List Row) (y : Nat) (c : List Char)
    (h : ∀ k ∈ dKeys (bankRows t y c), wSum (dGroup (bankRows t y c) k) ≠ 0) :
    bankWeightedOccupancy t y c =
      some ((dKeys (bankRows t y c)).map (fun k =>
        (k, dotSum (dGroup (bankRows t y c) k) / wSum (dGroup (bankRows t y c) k)))) := by
  unfold bankWeightedOccupancy
  apply optMapM_eq_map
  intro k hk
  simp only [npAverage, if_neg (h k hk), Option.map_some']

/-- Witness for `bankWeightedOccupancy_formula` on the two-row table
`wTab`. -/
theorem bankWeightedOccupancy_formula_witness :
    (∀ k ∈ dKeys (bankRows wTab 2020 nameB), wSum (dGroup (bankRows wTab 2020 nameB) k) ≠ 0)
    ∧ bankWeightedOccupancy wTab 2020 nameB =
        some ((dKeys (bankRows wTab 2020 nameB)).map (fun k =>
          (k, dotSum (dGroup (bankRows wTab 2020 nameB) k) / wSum (dGroup (bankRows wTab 2020 nameB) k)))) :=
  ⟨by decide, bankWeightedOccupancy_formula wTab 2020 nameB (by decide)⟩

/-- C2: for every reporting period across the cleaned rows of the selected
vintage, the computed p25, p50 and p75 equal the 25th, 50th and 75th
percentiles — in the linear-interpolation reference definition, which is
`np.percentile`'s default — of that period's normalized occupancy
values. -/
theorem percentiles_match_reference (t : List Row) (y : Nat) :
    percentiles t y =
      (dKeys (vintageRows t y)).map (fun k =>
        (k,
          refPercentile 25 ((dGroup (vintageRows t y) k).map (fun r => r.occ)),
          refPercentile 50 ((dGroup (vintageRows t y) k).map (fun r => r.occ)),
          refPercentile 75 ((dGroup (vintageRows t y) k).map (fun r => r.occ)))) := by
  simp only [percentiles, npPercentile_eq_ref]

/-- C5: when the vintage derivation succeeds, the dropdown list is
strictly increasing (sorted and duplicate-free) and contains exactly the
integers arising as the first four-digit-year match of some row's
`COMPANY_NAME`. -/
theorem uniqueYears_sorted_mem (t : List Row) (l : List Nat) (v : Nat)
    (h : uniqueYears t = some l) :
    List.Sorted (· < ·) l ∧ (v ∈ l ↔ ∃ r ∈ t, extractYear r.company = some v) := by
  unfold uniqueYears at h
  cases hys : optMapM extractYear ((t.map (fun r => r.company)).dedup) with
  | none => rw [hys] at h; simp at h
  | some ys =>
    rw [hys, Option.map_some'] at h
    have h2 : ys.dedup.insertionSort (· ≤ ·) = l := Option.some.inj h
    subst h2
    constructor
    · exact (List.sorted_insertionSort _ _).lt_of_le
        (((List.perm_insertionSort _ _).nodup_iff).mpr (List.nodup_dedup ys))
    · rw [(List.perm_insertionSort _ _).mem_iff, List.mem_dedup,
        optMapM_mem_iff extractYear _ ys hys v]
      constructor
      · rintro ⟨name, hname, hex⟩
        rw [List.mem_dedup, List.mem_map] at hname
        obtain ⟨r, hr, rfl⟩ := hname
        exact ⟨r, hr, hex⟩
      · rintro ⟨r, hr, hex⟩
        refine ⟨r.company, ?_, hex⟩
        rw [List.mem_dedup, List.mem_map]
        exact ⟨r, hr, rfl⟩

/-- Witness for `uniqueYears_sorted_mem` on the table `cTab`, at the
vintage 2019. -/
theorem uniqueYears_sorted_mem_witness :
    uniqueYears cTab = some [2019, 2020]
    ∧ List.Sorted (· < ·) [2019, 2020]
    ∧ ((2019 : Nat) ∈ [2019, 2020] ↔ ∃ r ∈ cTab, extractYear r.company = some 2019) :=
  ⟨by decide, (uniqueYears_sorted_mem cTab [2019, 2020] 2019 (by decide)).1,
    (uniqueYears_sorted_mem cTab [2019, 2020] 2019 (by decide)).2⟩

/-- C10 counterexample: two distinct period-end dates in the same calendar
month are not always merged: January 1 and January 15 of 2021 are shifted
to different month-start keys, and on `mTab` they form two groups, not
one. -/
theorem monthShift_same_month_cex :
    ((⟨2021, 1, 1⟩ : Date).year = (⟨2021, 1, 15⟩ : Date).year)
    ∧ ((⟨2021, 1, 1⟩ : Date).month = (⟨2021, 1, 15⟩ : Date).month)
    ∧ monthBeginRollback ⟨2021, 1, 1⟩ ≠ monthBeginRollback ⟨2021, 1, 15⟩
    ∧ dKeys (bankRows mTab 2020 nameB) = [⟨2020, 12, 1⟩, ⟨2021, 1, 1⟩] := by
  refine ⟨by decide, by decide, by decide, by decide⟩

/-- C10 (amended): the `MonthBegin` shift maps a date after the first of
its month to the first of that month and the first of a month to the first
of the previous month; the grouping key of the aggregations is exactly the
shifted date; and two period-end dates in the same month are merged into
one period provided both fall after the first day of the month. -/
theorem monthBeginRollback_spec (d e f : Date) (l : List CRow) (k : Date)
    (hy : d.year = e.year) (hm : d.month = e.month) (hd : 1 < d.day)
    (he : 1 < e.day) (hf : f.day = 1) :
    monthBeginRollback d = ⟨d.year, d.month, 1⟩
    ∧ monthBeginRollback d = monthBeginRollback e
    ∧ monthBeginRollback f =
        (if f.month = 1 then ⟨f.year - 1, 12, 1⟩ else ⟨f.year, f.month - 1, 1⟩)
    ∧ (k ∈ dKeys (shiftRows l) ↔ ∃ r ∈ l, monthBeginRollback r.date = k) := by
  have hd1 : ¬ d.day = 1 := by omega
  have he1 : ¬ e.day = 1 := by omega
  refine ⟨?_, ?_, ?_, ?_⟩
  · simp [monthBeginRollback, hd1]
  · simp [monthBeginRollback, hd1, he1, hy, hm]
  · simp [monthBeginRollback, hf]
  · simp [mem_dKeys, shiftRows]

/-- Witness for `monthBeginRollback_spec` at May 20 and May 7 of 2021,
January 1 of 2021, and the one-row list `[mRow]`. -/
theorem monthBeginRollback_spec_witness :
    ((1 : Int) < 20 ∧ (1 : Int) < 7)
    ∧ monthBeginRollback ⟨2021, 5, 20⟩ = ⟨2021, 5, 1⟩
    ∧ monthBeginRollback ⟨2021, 5, 20⟩ = monthBeginRollback ⟨2021, 5, 7⟩
    ∧ monthBeginRollback ⟨2021, 1, 1⟩ = ⟨2020, 12, 1⟩
    ∧ ((⟨2021, 5, 1⟩ : Date) ∈ dKeys (shiftRows [mRow]) ↔
        ∃ r ∈ [mRow], monthBeginRollback r.date = ⟨2021, 5, 1⟩) := by
  have h := monthBeginRollback_spec ⟨2021, 5, 20⟩ ⟨2021, 5, 7⟩ ⟨2021, 1, 1⟩
    [mRow] ⟨2021, 5, 1⟩ rfl rfl (by decide) (by decide) rfl
  exact ⟨⟨by decide, by decide⟩, h.1, h.2.1, h.2.2.1, h.2.2.2⟩

end CMBS
